import Mathlib

/-!
Verification development for the SQLAlchemy-backed RDF store
(`rdflib_sqlalchemy/store.py`).

The Python source is shallowly embedded: terms, triple patterns, the WHERE
clause builders (`buildSubjClause`, `buildPredClause`, `buildObjClause`,
`buildContextClause`, `buildLitDTypeClause`, `buildLitLanguageClause`,
`buildTypeMemberClause`, `buildTypeClassClause`), the partition-selection
logic of `triples`/`triples_choices`, the column projection of
`union_select`, the mutation engine (`add`, `addN`, `remove`,
`_remove_context`, `bind`) with an explicit failure-injecting engine, the
skolemisation pair, and the memoising literal-term construction of
`createTerm`.

SQL evaluation is modelled extensionally: a table is a list of rows, a
compiled WHERE clause is evaluated as a Boolean predicate on a row, a
DELETE removes the matching rows and an INSERT appends.  The `REGEXP`
operator is kept abstract as a parameter `rm : String -> String -> Bool`
(pattern, candidate), since the store delegates regex matching to the
database engine.
-/

namespace RStore

/-- The `rdflib.RDF.type` URI (the reserved "is-a" predicate). -/
def rdfTypeStr : String := "http://www.w3.org/1999/02/22-rdf-syntax-ns#type"

/-- A typed RDF term, as far as the store's query/mutation paths inspect
one: a URI reference, a blank node, or a literal with optional language
and datatype tags.  (Graph-valued terms and variables are not needed by
the verified paths.) -/
inductive Term where
  | uri (v : String)
  | bnode (v : String)
  | lit (v : String) (lang : Option String) (dtype : Option String)
deriving DecidableEq, Repr

/-- The string serialisation a term contributes as a bound SQL parameter:
rdflib terms are `str` subclasses, so binding one compares the column with
its string value (for a literal, the lexical form). -/
def termValue : Term → String
  | .uri v => v
  | .bnode v => v
  | .lit v _ _ => v

/-- Python truthiness of a term: URIRef, BNode and Literal are `str`
subclasses, so a term is falsy exactly when its string value is empty. -/
def termTruthy (t : Term) : Bool := termValue t ≠ ""

/-- `isinstance(t, Literal)`. -/
def isLitTerm : Term → Bool
  | .lit _ _ _ => true
  | _ => false

/-- A triple-pattern slot value, before the `None` (wildcard) wrapper: a
concrete term, a `REGEXTerm` (carrying its pattern text), or a Python list
of slot values (the clause builders recurse into lists). -/
inductive Pat where
  | term (t : Term)
  | regex (e : String)
  | tlist (ts : List Pat)

/-- Python truthiness of a pattern slot value.  A `REGEXTerm` is a `str`
subclass (truthy iff its pattern text is non-empty); a list is truthy iff
non-empty. -/
def patTruthy : Pat → Bool
  | .term t => termTruthy t
  | .regex e => e ≠ ""
  | .tlist ts => !ts.isEmpty

/-- Truthiness of an optional slot: `None` is falsy. -/
def truthyOpt : Option Pat → Bool
  | none => false
  | some p => patTruthy p

/-- `isinstance(x, Literal)` on a slot value. -/
def isLitPat : Pat → Bool
  | .term (.lit _ _ _) => true
  | _ => false

/-- `isinstance(x, Literal)` on an optional slot. -/
def isLitOpt : Option Pat → Bool
  | none => false
  | some q => isLitPat q

/-- `isinstance(x, REGEXTerm)` on an optional slot. -/
def isRegexOpt : Option Pat → Bool
  | some (.regex _) => true
  | _ => false

/-- `predicate == RDF.type` under rdflib/Python equality: a URIRef equals
`RDF.type` iff the strings agree; a `REGEXTerm` is a plain `str` subclass
so `==` compares its pattern text with the URI string; a Literal, a BNode
or a list never equals a URIRef. -/
def patEqRdfType : Option Pat → Bool
  | some (.term (.uri v)) => v == rdfTypeStr
  | some (.regex e) => e == rdfTypeStr
  | _ => false

/-- `isinstance(predicate, REGEXTerm) and predicate.compiledExpr.match(RDF.type)`,
with the regex engine abstracted as `rm`. -/
def regexMatchesRdfType (rm : String → String → Bool) : Option Pat → Bool
  | some (.regex e) => rm e rdfTypeStr
  | _ => false

mutual

/-- Evaluation, against one column value, of the clause that
`buildSubjClause` / `buildPredClause` / `buildObjClause` /
`buildTypeMemberClause` / `buildTypeClassClause` compile for a non-`None`
slot value: a `REGEXP` predicate for a regex term, an `OR` over the
non-falsy elements for a list, and an equality comparison with the term's
bound string value otherwise. -/
def evalPatClause (rm : String → String → Bool) (col : String) : Pat → Bool
  | .term t => col == termValue t
  | .regex e => rm e col
  | .tlist ts => evalPatList rm col ts

/-- Evaluation of `expression.or_(*[build(o) for o in obj if o])`: falsy
elements are dropped before their clauses are built; an empty `OR` matches
no row. -/
def evalPatList (rm : String → String → Bool) (col : String) : List Pat → Bool
  | [] => false
  | q :: qs => (patTruthy q && evalPatClause rm col q) || evalPatList rm col qs

end

/-- Evaluation of an optional slot's contribution: `None` compiles to no
clause at all, which restricts nothing. -/
def evalSlot (rm : String → String → Bool) (pat : Option Pat) (col : String) : Bool :=
  match pat with
  | none => true
  | some p => evalPatClause rm col p

/-- `buildContextClause`: the context is carried as its identifier string;
`None` contributes no clause. -/
def evalCtxClause (ctx : Option String) (col : String) : Bool :=
  match ctx with
  | none => true
  | some c => col == c

/-- The datatype the object slot forces via `buildLitDTypeClause`:
present only when the object is a Literal whose `datatype` is not `None`. -/
def litDTypeOf : Option Pat → Option String
  | some (.term (.lit _ _ (some d))) => some d
  | _ => none

/-- The language the object slot forces via `buildLitLanguageClause`. -/
def litLangOf : Option Pat → Option String
  | some (.term (.lit _ (some l) _)) => some l
  | _ => none

/-- Evaluation of `buildLitDTypeClause` against the row's `objDatatype`
column (SQL `NULL = d` does not match). -/
def evalLitDType (o : Option Pat) (rowDt : Option String) : Bool :=
  match litDTypeOf o with
  | none => true
  | some d => rowDt == some d

/-- Evaluation of `buildLitLanguageClause` against `objLanguage`. -/
def evalLitLang (o : Option Pat) (rowLang : Option String) : Bool :=
  match litLangOf o with
  | none => true
  | some l => rowLang == some l

/-- A row of a statement-shaped partition (`asserted_statements`,
`literal_statements`, `quoted_statements`), and also the uniform
eight-column shape `union_select` projects every partition onto.  The
physical `asserted_statements` table has no `objLanguage`/`objDatatype`
columns; its rows carry `none` here, matching the `NULL` placeholders the
union query adds (see `unionSelectColumns`).  The auto-increment `id`
column is not modelled: no verified path observes it. -/
structure SRow where
  subject : String
  predicate : String
  object : String
  context : String
  termComb : Nat
  objLanguage : Option String
  objDatatype : Option String
deriving DecidableEq, Repr

/-- A row of the `type_statements` partition. -/
structure TypeRow where
  member : String
  klass : String
  context : String
  termComb : Nat
deriving DecidableEq, Repr

/-- The store's relational state: the four statement partitions plus the
namespace-binding table. -/
structure DB where
  typeRows : List TypeRow
  assertedRows : List SRow
  literalRows : List SRow
  quotedRows : List SRow
  nsRows : List (String × String)
deriving DecidableEq, Repr

/-- Evaluation of `buildClause(table, subject, predicate, obj, context)`
(the non-type-table branch) on one row: the `AND` of the present
sub-clauses; absent sub-clauses restrict nothing. -/
def matchesStmtRow (rm : String → String → Bool) (s p o : Option Pat)
    (ctx : Option String) (r : SRow) : Bool :=
  evalSlot rm s r.subject && evalSlot rm p r.predicate && evalSlot rm o r.object &&
    evalCtxClause ctx r.context && evalLitDType o r.objDatatype &&
    evalLitLang o r.objLanguage

/-- Evaluation of `buildClause(table, subject, _, obj, context, True)` (the
type-table branch) on a type row; the predicate argument is ignored, the
type table having no predicate column. -/
def matchesTypeRow (rm : String → String → Bool) (s o : Option Pat)
    (ctx : Option String) (r : TypeRow) : Bool :=
  evalSlot rm s r.member && evalSlot rm o r.klass && evalCtxClause ctx r.context

/-- One of the four statement partitions. -/
inductive Partition where
  | typePart
  | assertedPart
  | literalPart
  | quotedPart
deriving DecidableEq, Repr

/-- The condition under which `triples`/`contexts` scan the literal
partition, for a non-"is-a" predicate (`store.py`, the repeated test
`not self.STRONGLY_TYPED_TERMS or isinstance(obj, Literal) or not obj or
(self.STRONGLY_TYPED_TERMS and isinstance(obj, REGEXTerm))`). -/
def litScanCond (stt : Bool) (o : Option Pat) : Bool :=
  !stt || isLitOpt o || !truthyOpt o || (stt && isRegexOpt o)

/-- The condition under which the asserted non-type partition is scanned
(`not isinstance(obj, Literal) and not (isinstance(obj, REGEXTerm) and
self.STRONGLY_TYPED_TERMS) or not obj`, with Python's `and`-over-`or`
precedence). -/
def assertedScanCond (stt : Bool) (o : Option Pat) : Bool :=
  (!isLitOpt o && !(isRegexOpt o && stt)) || !truthyOpt o

/-- The partitions `SQLAlchemy.triples` adds to the union query, in the
order the code appends them.  `stt` is the store's
`STRONGLY_TYPED_TERMS` switch (initialised to `False`); `hasCtx` is
`context is not None`.  The quoted partition is appended after every
branch exactly when a context is given. -/
def triplesSelects (stt : Bool) (rm : String → String → Bool)
    (p o : Option Pat) (hasCtx : Bool) : List Partition :=
  (if patEqRdfType p then
    [.typePart]
  else if regexMatchesRdfType rm p || !truthyOpt p then
    (if litScanCond stt o then [.literalPart] else []) ++
      (if assertedScanCond stt o then [.assertedPart] else []) ++ [.typePart]
  else
    (if litScanCond stt o then [.literalPart] else []) ++
      (if assertedScanCond stt o then [.assertedPart] else [])) ++
  (if hasCtx then [.quotedPart] else [])

/-- `union_select`'s projection of a `type_statements` row onto the
uniform eight-column shape: member becomes the subject, the literal
`rdf:type` string the predicate, klass the object, with `NULL`
language/datatype placeholders. -/
def projectType (r : TypeRow) : SRow :=
  { subject := r.member
    predicate := rdfTypeStr
    object := r.klass
    context := r.context
    termComb := r.termComb
    objLanguage := none
    objDatatype := none }

/-- The rows one partition contributes to the `triples` union: its rows
matching the compiled WHERE clause, projected onto the uniform shape.
For the type partition the clause is built with `RDF.type` as the
predicate and `typeTable=True`, so only member/klass/context are
constrained. -/
def partitionRows (rm : String → String → Bool) (db : DB) (s p o : Option Pat)
    (ctx : Option String) : Partition → List SRow
  | .typePart => (db.typeRows.filter (matchesTypeRow rm s o ctx)).map projectType
  | .assertedPart => db.assertedRows.filter (matchesStmtRow rm s p o ctx)
  | .literalPart => db.literalRows.filter (matchesStmtRow rm s p o ctx)
  | .quotedPart => db.quotedRows.filter (matchesStmtRow rm s p o ctx)

/-- The full multiset of uniform rows the `triples` union query returns
(`UNION ALL` over the selected partitions, in selection order). -/
def triplesRows (stt : Bool) (rm : String → String → Bool) (db : DB)
    (s p o : Option Pat) (ctx : Option String) : List SRow :=
  ((triplesSelects stt rm p o ctx.isSome).map (partitionRows rm db s p o ctx)).flatten

/-- `triples_choices`' normalisation of its list-valued slot: an empty
(falsy) list is replaced by `None` before dispatching to `triples`; a
non-empty list is passed through as the list slot value. -/
def choiceSlot (ts : List Pat) : Option Pat :=
  if ts.isEmpty then none else some (.tlist ts)

/-- `triples_choices` with the list in the object slot. -/
def triples_choices_obj (stt : Bool) (rm : String → String → Bool) (db : DB)
    (s p : Option Pat) (ts : List Pat) (ctx : Option String) : List SRow :=
  triplesRows stt rm db s p (choiceSlot ts) ctx

/-- `triples_choices` with the list in the subject slot. -/
def triples_choices_subj (stt : Bool) (rm : String → String → Bool) (db : DB)
    (ts : List Pat) (p o : Option Pat) (ctx : Option String) : List SRow :=
  triplesRows stt rm db (choiceSlot ts) p o ctx

/-- `triples_choices` with the list in the predicate slot. -/
def triples_choices_pred (stt : Bool) (rm : String → String → Bool) (db : DB)
    (s : Option Pat) (ts : List Pat) (o : Option Pat) (ctx : Option String) : List SRow :=
  triplesRows stt rm db s (choiceSlot ts) o ctx

/-! ## Skolemisation (`skolemise` / `deskolemise`) -/

/-- Python `s.startswith(pre)` (code-point based, like all the string
operations here). -/
def pyStartsWith (s pre : String) : Bool := pre.data.isPrefixOf s.data

/-- The per-term map inside `skolemise`: a BNode is rewritten to the
synthetic URI `bnode:<id>`; every other term is returned unchanged. -/
def skolemiseTerm : Term → Term
  | .bnode b => .uri ("bnode:" ++ b)
  | t => t

/-- The per-term map inside `deskolemise`: a URIRef starting with
`bnode:` is split at its first colon (which the prefix guard places right
after `bnode`, so the remainder is the string with the six characters
`bnode:` dropped) and rebuilt as a BNode; every other term is returned
unchanged. -/
def deskolemiseTerm : Term → Term
  | .uri v => if pyStartsWith v "bnode:" then .bnode (String.mk (v.data.drop 6)) else .uri v
  | t => t

/-- `skolemise(statement)`: the statement tuple is mapped elementwise. -/
def skolemise (s : List Term) : List Term := s.map skolemiseTerm

/-- `deskolemise(statement)`. -/
def deskolemise (s : List Term) : List Term := s.map deskolemiseTerm

/-- Whether one term is safe for the skolemisation round trip: any term
other than a URIRef already starting with `bnode:`. -/
def termNoBnodeUri : Term → Bool
  | .uri v => !pyStartsWith v "bnode:"
  | _ => true

/-- Decidable side condition for the skolemisation round trip: no URIRef
in the statement already starts with `bnode:`. -/
def noBnodeUris (s : List Term) : Bool := s.all termNoBnodeUri

/-! ## `createTerm`'s literal cache -/

/-- A decoded literal term, as `Literal(...)` is called in `createTerm`:
`Literal(v, x)` passes `x` positionally as the language tag, while
`Literal(v, datatype=x)` sets the datatype. -/
structure LitTerm where
  value : String
  lang : Option String
  dtype : Option String
deriving DecidableEq, Repr

/-- The key shapes under which `createTerm` touches
`store.literalCache`: the lookup uses the 3-tuple
`(termString, objLanguage, objDatatype)`; the stores use the 2-tuples
`(termString, objLanguage)` / `(termString, objDatatype)` or — since
`((termString))` is just the string, not a tuple — the bare string.
Distinct shapes are distinct Python dict keys. -/
inductive LitKey where
  | key3 (v : String) (lang dt : Option String)
  | key2 (v : String) (x : String)
  | key1 (v : String)
deriving DecidableEq, Repr

/-- `store.literalCache`, a dict from key to cached term. -/
abbrev LitCache := List (LitKey × LitTerm)

/-- Dict lookup (`cache.get(k)`). -/
def cacheGet : LitCache → LitKey → Option LitTerm
  | [], _ => none
  | (k', t) :: rest, k => if k' = k then some t else cacheGet rest k

/-- Dict assignment (`cache[k] = t`); prepending makes the newest binding
the one `cacheGet` finds. -/
def cachePut (c : LitCache) (k : LitKey) (t : LitTerm) : LitCache := (k, t) :: c

/-- Python truthiness of an optional string (`if objLanguage`). -/
def optTruthy : Option String → Bool
  | none => false
  | some s => s ≠ ""

/-- The `termType == "L"` branch of `createTerm`: look the literal up
under the 3-tuple key; on a miss, construct it and store it under the
branch-specific key.  Note the final (both-set) branch calls
`Literal(termString, objDatatype)`, passing the datatype positionally into
the language slot. -/
def createLiteralTerm (c : LitCache) (v : String) (lang dt : Option String) :
    LitTerm × LitCache :=
  match cacheGet c (.key3 v lang dt) with
  | some t => (t, c)
  | none =>
    if optTruthy lang && !optTruthy dt then
      let rt : LitTerm := { value := v, lang := lang, dtype := none }
      (rt, cachePut c (.key2 v (lang.getD "")) rt)
    else if optTruthy dt && !optTruthy lang then
      let rt : LitTerm := { value := v, lang := none, dtype := dt }
      (rt, cachePut c (.key2 v (dt.getD "")) rt)
    else if !optTruthy lang && !optTruthy dt then
      let rt : LitTerm := { value := v, lang := none, dtype := none }
      (rt, cachePut c (.key1 v) rt)
    else
      let rt : LitTerm := { value := v, lang := dt, dtype := none }
      (rt, cachePut c (.key2 v (dt.getD "")) rt)

/-! ## `contexts()` -/

/-- The handle kinds `contexts()` could conceivably yield for a stored
context: a plain URI reference, or a quoted/formula-graph handle (the
shape `construct_graph`-based decoding would produce for a context whose
term kind is `F`). -/
inductive YieldedCtx where
  | uriRef (v : String)
  | quotedGraphHandle (v : String)
deriving DecidableEq, Repr

/-- The yield loop at the end of `contexts()`: every raw context column
value is wrapped as `URIRef(context)`, unconditionally. -/
def contextsYield (rows : List String) : List YieldedCtx :=
  rows.map YieldedCtx.uriRef

/-- The context column values the no-pattern `contexts()` query returns:
a distinct union over all four partitions (type, quoted, asserted,
literal — the order the components are listed). -/
def ctxColumnValues (db : DB) : List String :=
  ((db.typeRows.map TypeRow.context) ++ (db.quotedRows.map SRow.context) ++
    (db.assertedRows.map SRow.context) ++ (db.literalRows.map SRow.context)).dedup

/-- `contexts()` with no triple pattern. -/
def contextsAll (db : DB) : List YieldedCtx := contextsYield (ctxColumnValues db)

/-! ## Term-combination codec (spec-modelled)

The codec lives in `rdflib_sqlalchemy/termutils.py`, which is outside the
provided sources; only its call sites are in `store.py`. -/

/-- A term kind tag (spec §3: `U`, `B`, `L`, `F`, `V`, `s`). -/
inductive TermKind where
  | kU
  | kB
  | kL
  | kF
  | kV
  | kS
deriving DecidableEq, Repr

/-- Numeric code of a kind tag, for the injective 4-tuple encoding. -/
def kindCode : TermKind → Nat
  | .kU => 0
  | .kB => 1
  | .kL => 2
  | .kF => 3
  | .kV => 4
  | .kS => 5

/-- The kind tag of a term value. -/
def kindOfTerm : Term → TermKind
  | .uri _ => .kU
  | .bnode _ => .kB
  | .lit _ _ _ => .kL

/-- Kind tag of a statement's context: a quoted/formula graph carries the
`F` kind, a plain named graph the `U` kind. -/
def ctxKind (ctxQuoted : Bool) : TermKind := if ctxQuoted then .kF else .kU

/-- Modelled from the spec: `termutils.statement_to_term_combination` — a
total injective encoding of the ordered (subject-kind, predicate-kind,
object-kind, context-kind) 4-tuple into one integer (spec §3, §4.1).  The
concrete integer values are not fixed by the provided sources; base-6
digits realise the required injectivity. -/
def statement_to_term_combination (s p o : Term) (ctxQuoted : Bool) : Nat :=
  ((kindCode (kindOfTerm s) * 6 + kindCode (kindOfTerm p)) * 6 +
      kindCode (kindOfTerm o)) * 6 + kindCode (ctxKind ctxQuoted)

/-- Modelled from the spec: `termutils.type_to_term_combination` — the
variant for the type partition, where the predicate is implicitly the
"is-a" URI (spec §4.1). -/
def type_to_term_combination (member klass : Term) (ctxQuoted : Bool) : Nat :=
  ((kindCode (kindOfTerm member) * 6 + kindCode TermKind.kU) * 6 +
      kindCode (kindOfTerm klass)) * 6 + kindCode (ctxKind ctxQuoted)

/-! ## Mutation engine (`_get_build_command`, `add`, `addN`, `remove`,
`_remove_context`, `bind`)

Engine execution is modelled with explicit failure injection: `f i`
tells whether the `i`-th `connection.execute` call of the operation
raises.  A `WriteResult` records whether the operation let an exception
propagate to the caller (`raised`), whether its except-handler logged a
failure (`logged`), and the resulting relational state. -/

/-- The `command_type` tag `_get_build_command` returns. -/
inductive CommandType where
  | ctLiteral
  | ctOther
  | ctType
deriving DecidableEq, Repr

/-- The five tables (the namespace table is addressed directly by
`bind`). -/
inductive TableId where
  | typeTab
  | assertedTab
  | literalTab
  | quotedTab
deriving DecidableEq, Repr

/-- An insert-parameter row: type-table rows and statement-table rows have
different shapes. -/
inductive RowVal where
  | typeRow (r : TypeRow)
  | stmtRow (r : SRow)
deriving DecidableEq, Repr

/-- `x or None` on an optional tag (`isinstance(obj, Literal) and
obj.language or None`): a falsy tag becomes `None`. -/
def normTag : Option String → Option String
  | none => none
  | some s => if s = "" then none else some s

/-- Language tag of a term when it is a literal, else `None`. -/
def litLangOfTerm : Term → Option String
  | .lit _ l _ => normTag l
  | _ => none

/-- Datatype tag of a term when it is a literal, else `None`. -/
def litDTypeOfTerm : Term → Option String
  | .lit _ _ d => normTag d
  | _ => none

/-- `predicate == RDF.type` for a concrete term (rdflib equality: same
term class and same string). -/
def termEqRdfType : Term → Bool
  | .uri v => v == rdfTypeStr
  | _ => false

/-- `SQLAlchemy._get_build_command(triple, context, quoted)`: route the
statement to its partition and build the insert statement plus bound
parameters.  A quoted statement or a non-"is-a" predicate goes to the
literal partition when the object is a literal, else to the quoted or
asserted partition (only the quoted/literal rows carry language/datatype
values); an unquoted "is-a" statement goes to the type partition. -/
def getBuildCommand (s p o : Term) (ctxId : String) (ctxQuoted : Bool)
    (quoted : Bool) : CommandType × TableId × RowVal :=
  if quoted || !termEqRdfType p then
    if isLitTerm o then
      (.ctLiteral, .literalTab, .stmtRow
        { subject := termValue s
          predicate := termValue p
          object := termValue o
          context := ctxId
          termComb := statement_to_term_combination s p o ctxQuoted
          objLanguage := litLangOfTerm o
          objDatatype := litDTypeOfTerm o })
    else
      (.ctOther, if quoted then .quotedTab else .assertedTab, .stmtRow
        { subject := termValue s
          predicate := termValue p
          object := termValue o
          context := ctxId
          termComb := statement_to_term_combination s p o ctxQuoted
          objLanguage := if quoted then litLangOfTerm o else none
          objDatatype := if quoted then litDTypeOfTerm o else none })
  else
    (.ctType, .typeTab, .typeRow
      { member := termValue s
        klass := termValue o
        context := ctxId
        termComb := type_to_term_combination s o ctxQuoted })

/-- Append one parameter row into one physical table.  The mismatched
pairings (a type row aimed at a statement table or vice versa) cannot be
produced by `getBuildCommand` and leave the state unchanged. -/
def applyInsertRow (tid : TableId) (rv : RowVal) (db : DB) : DB :=
  match tid, rv with
  | .typeTab, .typeRow r => { db with typeRows := db.typeRows ++ [r] }
  | .assertedTab, .stmtRow r => { db with assertedRows := db.assertedRows ++ [r] }
  | .literalTab, .stmtRow r => { db with literalRows := db.literalRows ++ [r] }
  | .quotedTab, .stmtRow r => { db with quotedRows := db.quotedRows ++ [r] }
  | _, _ => db

/-- A quad as `addN` receives it: a triple plus its context graph, whose
identifier and quotedness (`isinstance(context, QuotedGraph)`) are what
the store consumes. -/
structure Quad where
  subj : Term
  pred : Term
  obj : Term
  ctxId : String
  ctxQuoted : Bool

/-- One batched insert of `addN`: the statement kept by the first
`setdefault` for its command kind, and every accumulated parameter row. -/
structure Batch where
  ctype : CommandType
  tid : TableId
  params : List RowVal
deriving DecidableEq, Repr

/-- `commands_dict` accumulation: `setdefault` keeps the first statement
seen for a command kind and appends the parameters; dict iteration order
is key-insertion order. -/
def insertCommand (acc : List Batch) (ct : CommandType) (tid : TableId)
    (rv : RowVal) : List Batch :=
  match acc with
  | [] => [{ ctype := ct, tid := tid, params := [rv] }]
  | b :: rest =>
    if b.ctype = ct then { b with params := b.params ++ [rv] } :: rest
    else b :: insertCommand rest ct tid rv

/-- The batches `addN` builds from its quads, grouped by resolved command
kind. -/
def groupCommands (quads : List Quad) : List Batch :=
  quads.foldl (fun acc q =>
    let c := getBuildCommand q.subj q.pred q.obj q.ctxId q.ctxQuoted q.ctxQuoted
    insertCommand acc c.1 c.2.1 c.2.2) []

/-- Execute one batched insert: every parameter row in order. -/
def applyBatch (b : Batch) (db : DB) : DB :=
  b.params.foldl (fun d rv => applyInsertRow b.tid rv d) db

/-- Whether any of the next `n` execute calls, starting at call index `i`,
is scheduled to fail. -/
def anyFailIn (f : Nat → Bool) (i : Nat) : Nat → Bool
  | 0 => false
  | n + 1 => f i || anyFailIn f (i + 1) n

/-- Run a sequence of execute calls inside one transaction body: each step
either raises (per the injected schedule) — aborting the sequence — or
applies its state transition.  `none` models the exception reaching the
except-handler. -/
def execSeq (f : Nat → Bool) (i : Nat) (step : α → DB → DB) :
    List α → DB → Option DB
  | [], db => some db
  | a :: rest, db =>
    if f i then none else execSeq f (i + 1) step rest (step a db)

/-- The caller-visible outcome of a write operation. -/
structure WriteResult where
  raised : Bool
  logged : Bool
  state : DB
deriving DecidableEq, Repr

/-- `SQLAlchemy.add`: build one insert, execute it; on failure the handler
logs the statement and parameters and re-raises. -/
def addWrite (f : Nat → Bool) (q : Quad) (quoted : Bool) (db : DB) : WriteResult :=
  let c := getBuildCommand q.subj q.pred q.obj q.ctxId q.ctxQuoted quoted
  if f 0 then { raised := true, logged := true, state := db }
  else { raised := false, logged := false, state := applyInsertRow c.2.1 c.2.2 db }

/-- `SQLAlchemy.addN`: group the quads into per-kind batches, execute the
batches inside one transaction; on any failure the handler logs, rolls the
whole transaction back and re-raises. -/
def addNWrite (f : Nat → Bool) (quads : List Quad) (db : DB) : WriteResult :=
  let batches := groupCommands quads
  match execSeq f 0 applyBatch batches db with
  | some db' => { raised := false, logged := false, state := db' }
  | none => { raised := true, logged := true, state := db }

/-- The guard `remove` uses to decide whether to delegate to
`_remove_context`: the source tests `object is None`, where `object` is
the Python builtin class — the unpacked object slot is named `obj` — so
the test is never true. -/
def pythonBuiltinObjectIsNone : Bool := false

/-- The delete plan of one `remove` call. -/
structure RemovePlan where
  delegated : Bool
  deletes : List Partition
deriving DecidableEq, Repr

/-- The four per-partition deletes `_remove_context` issues, in source
order. -/
def removeContextDeletes : List Partition :=
  [.quotedPart, .assertedPart, .typePart, .literalPart]

/-- The per-partition deletes the general (non-delegated) path of `remove`
issues, in source order: for a non-"is-a" (or absent/falsy) predicate the
literal partition (unless strongly-typed terms exclude it), then quoted,
then asserted (skipped when the object is a literal); for an "is-a" (or
absent/falsy) predicate additionally the type partition and — again — the
quoted partition. -/
def removeGeneralDeletes (stt : Bool) (p o : Option Pat) : List Partition :=
  (if !truthyOpt p || !patEqRdfType p then
    (if !stt || isLitOpt o then [.literalPart] else []) ++ [.quotedPart] ++
      (if isLitOpt o then [] else [.assertedPart])
  else []) ++
  (if patEqRdfType p || !truthyOpt p then [.typePart, .quotedPart] else [])

/-- `SQLAlchemy.remove`'s dispatch: with a context and a fully unbound
pattern it would delegate to `_remove_context`, but the guard tests the
Python builtin `object` (see `pythonBuiltinObjectIsNone`); otherwise the
general per-partition delete plan is executed. -/
def removePlan (stt : Bool) (s p o : Option Pat) (ctx : Option String) : RemovePlan :=
  if ctx.isSome && (s.isNone && p.isNone && pythonBuiltinObjectIsNone) then
    { delegated := true, deletes := removeContextDeletes }
  else
    { delegated := false, deletes := removeGeneralDeletes stt p o }

/-- Execute one per-partition delete: drop the rows matching the clause
built for that partition (the type-table clause constrains member, klass
and context only). -/
def applyDeleteOp (rm : String → String → Bool) (s p o : Option Pat)
    (ctx : Option String) (part : Partition) (db : DB) : DB :=
  match part with
  | .typePart => { db with typeRows := db.typeRows.filter (fun r => !matchesTypeRow rm s o ctx r) }
  | .assertedPart => { db with assertedRows := db.assertedRows.filter (fun r => !matchesStmtRow rm s p o ctx r) }
  | .literalPart => { db with literalRows := db.literalRows.filter (fun r => !matchesStmtRow rm s p o ctx r) }
  | .quotedPart => { db with quotedRows := db.quotedRows.filter (fun r => !matchesStmtRow rm s p o ctx r) }

/-- `SQLAlchemy.remove` / `_remove_context`: execute the planned deletes
inside one transaction.  Both except-handlers log and roll back but do
NOT re-raise — the operation returns normally either way.  In the
delegated branch the clause is the bare context clause (`buildClause`
with every term slot unbound). -/
def removeWrite (f : Nat → Bool) (rm : String → String → Bool) (stt : Bool)
    (s p o : Option Pat) (ctx : Option String) (db : DB) : WriteResult :=
  let plan := removePlan stt s p o ctx
  let step : Partition → DB → DB :=
    if plan.delegated then applyDeleteOp rm none none none ctx
    else applyDeleteOp rm s p o ctx
  match execSeq f 0 step plan.deletes db with
  | some db' => { raised := false, logged := false, state := db' }
  | none => { raised := false, logged := true, state := db }

/-- `SQLAlchemy.bind`: one insert into the namespace table; the handler
logs "Namespace binding failed." and swallows the exception. -/
def bindWrite (f : Nat → Bool) (pfx ns : String) (db : DB) : WriteResult :=
  if f 0 then { raised := false, logged := true, state := db }
  else { raised := false, logged := false,
         state := { db with nsRows := db.nsRows ++ [(pfx, ns)] } }

/-! ## `union_select`'s column projection (symbolic)

The SELECT list each partition contributes is modelled as a list of
labelled column expressions.  The physical column lists come from
`rdflib_sqlalchemy/tables.py`, which is outside the provided sources. -/

/-- A projected column expression: a native column of the aliased table, a
bound string literal (`expression.literal(...)`), or the literal `NULL`
(`expression.literal_column("NULL")`). -/
inductive ColExpr where
  | colRef (tbl : String) (name : String)
  | strLit (s : String)
  | nullLit
  | countStar
deriving DecidableEq, Repr

/-- A SELECT-list entry: an expression with its label. -/
structure SelCol where
  expr : ColExpr
  label : String
deriving DecidableEq, Repr

/-- Modelled from the spec: the column lists of the four statement tables
of `rdflib_sqlalchemy/tables.py` (spec §4.2), plus the `id` primary-key
column that `union_select`'s type-partition branch references
(`table.c.id`). -/
def tableColumns : TableId → List String
  | .typeTab => ["id", "member", "klass", "context", "termComb"]
  | .assertedTab => ["id", "subject", "predicate", "object", "context", "termComb"]
  | .literalTab =>
    ["id", "subject", "predicate", "object", "context", "termComb",
      "objLanguage", "objDatatype"]
  | .quotedTab =>
    ["id", "subject", "predicate", "object", "context", "termComb",
      "objLanguage", "objDatatype"]

/-- The physical table behind a partition tag. -/
def tableOf : Partition → TableId
  | .typePart => .typeTab
  | .assertedPart => .assertedTab
  | .literalPart => .literalTab
  | .quotedPart => .quotedTab

/-- The four `select_type` modes of `union_select`. -/
inductive SelectType where
  | countSel
  | contextSel
  | tripleSel
  | tripleNoOrder
deriving DecidableEq, Repr

/-- The SELECT list `union_select` builds for one component
`(table, whereClause, tableType)`, following the source's branch order:
COUNT mode counts rows; CONTEXT mode projects the context column; in the
full-triple modes the quoted and literal partitions (the
`FULL_TRIPLE_PARTITIONS`) select all native columns, the type partition
projects the explicit eight-column relabelling, and the asserted non-type
partition projects its native columns plus two `NULL` placeholders. -/
def unionSelectColumns (st : SelectType) (tt : Partition) (tbl : String) :
    List SelCol :=
  match st with
  | .countSel => [{ expr := .countStar, label := "count" }]
  | .contextSel => [{ expr := .colRef tbl "context", label := "context" }]
  | _ =>
    if tt = .quotedPart ∨ tt = .literalPart then
      (tableColumns (tableOf tt)).map (fun n => { expr := .colRef tbl n, label := n })
    else if tt = .typePart then
      [{ expr := .colRef tbl "id", label := "id" },
        { expr := .colRef tbl "member", label := "subject" },
        { expr := .strLit rdfTypeStr, label := "predicate" },
        { expr := .colRef tbl "klass", label := "object" },
        { expr := .colRef tbl "context", label := "context" },
        { expr := .colRef tbl "termComb", label := "termcomb" },
        { expr := .nullLit, label := "objlanguage" },
        { expr := .nullLit, label := "objdatatype" }]
    else
      (tableColumns (tableOf tt)).map (fun n => { expr := .colRef tbl n, label := n }) ++
        [{ expr := .nullLit, label := "objlanguage" },
          { expr := .nullLit, label := "objdatatype" }]

/-! ## Concrete fixtures used by witnesses and counterexamples -/

/-- A regex oracle under which no pattern matches anything. -/
def rmNone : String → String → Bool := fun _ _ => false

/-- The empty store state. -/
def dbEmpty : DB :=
  { typeRows := [], assertedRows := [], literalRows := [], quotedRows := [], nsRows := [] }

/-- An asserted (non-literal-object) row whose object column value `foo`
coincides with the lexical form of the literal `Literal("foo")`. -/
def rFoo : SRow :=
  { subject := "s", predicate := "p", object := "foo", context := "c",
    termComb := 0, objLanguage := none, objDatatype := none }

/-- A store holding only `rFoo` in the asserted partition. -/
def dbFoo : DB :=
  { typeRows := [], assertedRows := [rFoo], literalRows := [], quotedRows := [], nsRows := [] }

/-- The plain literal `Literal("foo")` as an object slot value. -/
def oLit : Pat := .term (.lit "foo" none none)

/-- The URIRef `bar` as an object slot value. -/
def oBar : Pat := .term (.uri "bar")

/-- A concrete bound, non-"is-a" predicate slot. -/
def pP : Option Pat := some (.term (.uri "p"))

/-- An asserted row with a URI object, for the list-union witness. -/
def rW : SRow :=
  { subject := "s", predicate := "p", object := "u1", context := "c",
    termComb := 0, objLanguage := none, objDatatype := none }

/-- A store holding only `rW` in the asserted partition. -/
def dbW : DB :=
  { typeRows := [], assertedRows := [rW], literalRows := [], quotedRows := [], nsRows := [] }

/-- URI object slot values for the list-union witness. -/
def o1W : Pat := .term (.uri "u1")

/-- Second URI object slot value for the list-union witness. -/
def o2W : Pat := .term (.uri "u2")

/-- A quoted-partition row whose context identifier is `c`; its
term-combination code carries the formula context kind, exercising the
claim that `contexts()` still yields a plain URI reference for it. -/
def rQuoted : SRow :=
  { subject := "s", predicate := "p", object := "o", context := "c",
    termComb := ((0 * 6 + 0) * 6 + 0) * 6 + 3, objLanguage := none, objDatatype := none }

/-- A store whose only statement lives in the quoted partition. -/
def dbCtxQ : DB :=
  { typeRows := [], assertedRows := [], literalRows := [], quotedRows := [rQuoted], nsRows := [] }

/-! ## Helper lemmas -/

/-- A transaction body either fails at the first scheduled failure —
leaving the handler to observe the exception — or applies every step. -/
theorem execSeq_eq (f : Nat → Bool) (step : α → DB → DB) :
    ∀ (l : List α) (i : Nat) (db : DB),
      execSeq f i step l db =
        if anyFailIn f i l.length then none
        else some (l.foldl (fun d a => step a d) db)
  | [], _, _ => by simp [execSeq, anyFailIn]
  | a :: rest, i, db => by
    by_cases h : f i
    · simp [execSeq, anyFailIn, h]
    · simp only [execSeq, List.length_cons, anyFailIn, h, Bool.false_or,
        if_neg (by simp [h] : ¬f i = true), List.foldl_cons]
      exact execSeq_eq f step rest (HAdd.hAdd i 1) (step a db)

/-- The remove guard's delegation condition is never satisfied, because it
tests the Python builtin `object`. -/
theorem removePlan_not_delegated (stt : Bool) (s p o : Option Pat) (ctx : Option String) :
    removePlan stt s p o ctx =
      { delegated := false, deletes := removeGeneralDeletes stt p o } := by
  simp [removePlan, pythonBuiltinObjectIsNone]

/-- Counting into a filtered list: the count survives exactly when the
counted element itself satisfies the filter. -/
theorem count_filter_ite {α : Type} [DecidableEq α] (l : List α) (q : α → Bool) (r : α) :
    (l.filter q).count r = if q r then l.count r else 0 := by
  induction l with
  | nil => simp
  | cons a as ih =>
    by_cases ha : a = r
    · subst ha
      by_cases hq : q a <;> simp [List.filter_cons, hq, List.count_cons, ih]
    · have hb : (a == r) = false := by simp [ha]
      by_cases hq : q a <;> simp [List.filter_cons, hq, List.count_cons, hb, ih]

/-- Counting an image point through filter-then-map, when the map is
injective: only the unique fiber element can contribute, so the filter
reduces to a test on it. -/
theorem count_filter_map_at {α : Type} [DecidableEq α] (f : α → SRow)
    (hf : ∀ x y, f x = f y → x = y) (q : α → Bool) (x0 : α) :
    ∀ l : List α,
      ((l.filter q).map f).count (f x0) = if q x0 then (l.map f).count (f x0) else 0
  | [] => by simp
  | a :: as => by
    have ih := count_filter_map_at f hf q x0 as
    by_cases hfa : f a = f x0
    · have ha : a = x0 := hf _ _ hfa
      subst ha
      by_cases hq : q a <;> simp [List.filter_cons, hq, List.count_cons, ih]
    · have hb : (f a == f x0) = false := by simp [hfa]
      by_cases hq : q a <;> simp [List.filter_cons, hq, List.count_cons, hb, ih]

/-- Counting distributes over a flattened list of lists as a sum. -/
theorem count_flatten_sum (L : List (List SRow)) (r : SRow) :
    L.flatten.count r = (L.map (fun l => l.count r)).sum := by
  induction L with
  | nil => rfl
  | cons l ls ih => simp [List.flatten_cons, List.count_append, ih]

/-- A sum of summands gated by one common condition. -/
theorem sum_map_ite (sel : List Partition) (e : Bool) (b : Partition → Nat) :
    (sel.map (fun t => if e then b t else 0)).sum = if e then (sel.map b).sum else 0 := by
  cases e <;> simp

/-- The uniform projection of a type row is injective. -/
theorem projectType_inj (x y : TypeRow) (h : projectType x = projectType y) : x = y := by
  cases x
  cases y
  simp [projectType] at h
  simp [h]

/-- `OR` of a two-element list of truthy slot values. -/
theorem evalPatList_pair (rm : String → String → Bool) (col : String) (o1 o2 : Pat)
    (h1 : patTruthy o1 = true) (h2 : patTruthy o2 = true) :
    evalPatList rm col [o1, o2] = (evalPatClause rm col o1 || evalPatClause rm col o2) := by
  simp [evalPatList, h1, h2]

/-- A non-literal slot value contributes no datatype clause. -/
theorem litDTypeOf_nonlit (oe : Pat) (h : isLitPat oe = false) :
    litDTypeOf (some oe) = none := by
  cases oe with
  | term t => cases t with
    | lit v l d => simp [isLitPat] at h
    | uri v => rfl
    | bnode v => rfl
  | regex e => rfl
  | tlist ts => rfl

/-- A non-literal slot value contributes no language clause. -/
theorem litLangOf_nonlit (oe : Pat) (h : isLitPat oe = false) :
    litLangOf (some oe) = none := by
  cases oe with
  | term t => cases t with
    | lit v l d => simp [isLitPat] at h
    | uri v => rfl
    | bnode v => rfl
  | regex e => rfl
  | tlist ts => rfl

/-- A non-literal object slot value makes the datatype sub-clause
vacuous. -/
theorem evalLitDType_nonlit (oe : Pat) (h : isLitPat oe = false) (d : Option String) :
    evalLitDType (some oe) d = true := by
  simp [evalLitDType, litDTypeOf_nonlit oe h]

/-- A non-literal object slot value makes the language sub-clause
vacuous. -/
theorem evalLitLang_nonlit (oe : Pat) (h : isLitPat oe = false) (l : Option String) :
    evalLitLang (some oe) l = true := by
  simp [evalLitLang, litLangOf_nonlit oe h]

/-- For a non-literal object slot value, the statement-table clause
factors into the object-wildcard clause and the object sub-clause. -/
theorem matchesStmtRow_factor (rm : String → String → Bool) (p : Option Pat)
    (ctx : Option String) (oe : Pat) (hoe : isLitPat oe = false) (x : SRow) :
    matchesStmtRow rm none p (some oe) ctx x =
      (matchesStmtRow rm none p none ctx x && evalPatClause rm x.object oe) := by
  unfold matchesStmtRow
  rw [evalLitDType_nonlit oe hoe, evalLitLang_nonlit oe hoe]
  simp only [evalSlot, evalLitDType, evalLitLang, litDTypeOf, litLangOf]
  cases evalSlot rm p x.predicate <;> cases evalCtxClause ctx x.context <;>
    cases evalPatClause rm x.object oe <;> simp [evalSlot]

/-- The type-table clause factors the same way (it has no literal
sub-clauses at all). -/
theorem matchesTypeRow_factor (rm : String → String → Bool) (ctx : Option String)
    (oe : Pat) (x : TypeRow) :
    matchesTypeRow rm none (some oe) ctx x =
      (matchesTypeRow rm none none ctx x && evalPatClause rm x.klass oe) := by
  unfold matchesTypeRow
  simp only [evalSlot]
  cases evalCtxClause ctx x.context <;> cases evalPatClause rm x.klass oe <;> simp

/-- With `STRONGLY_TYPED_TERMS` off, the partition selection of `triples`
does not depend on the object slot, so long as the object is not a
Literal instance: the literal partition is always scanned and the
asserted partition is never pruned. -/
theorem triplesSelects_false_indep (rm : String → String → Bool) (p : Option Pat)
    (o : Option Pat) (hasCtx : Bool) (ho : isLitOpt o = false) :
    triplesSelects false rm p o hasCtx =
      (if patEqRdfType p then [.typePart]
       else if regexMatchesRdfType rm p || !truthyOpt p then
         [.literalPart, .assertedPart, .typePart]
       else [.literalPart, .assertedPart]) ++
        (if hasCtx then [.quotedPart] else []) := by
  unfold triplesSelects litScanCond assertedScanCond
  simp [ho]

/-- Per-partition row counts factor through the object sub-clause: the
rows a partition contributes for a non-literal object slot value are the
object-wildcard rows, gated by whether the counted row's object column
satisfies the object sub-clause. -/
theorem partitionRows_count_factor (rm : String → String → Bool) (db : DB)
    (p : Option Pat) (ctx : Option String) (oe : Pat) (hoe : isLitPat oe = false)
    (part : Partition) (r : SRow) :
    (partitionRows rm db none p (some oe) ctx part).count r =
      if evalPatClause rm r.object oe then
        (partitionRows rm db none p none ctx part).count r
      else 0 := by
  cases part with
  | typePart =>
    simp only [partitionRows]
    rw [List.filter_congr (fun x _ => matchesTypeRow_factor rm ctx oe x)]
    by_cases hmem : r ∈ db.typeRows.map projectType
    · obtain ⟨tr0, htr0, hproj⟩ := List.mem_map.mp hmem
      subst hproj
      rw [count_filter_map_at projectType projectType_inj _ tr0 db.typeRows,
        count_filter_map_at projectType projectType_inj _ tr0 db.typeRows]
      have hk : (projectType tr0).object = tr0.klass := rfl
      rw [hk]
      by_cases he : evalPatClause rm tr0.klass oe <;>
        by_cases hm : matchesTypeRow rm none none ctx tr0 <;> simp [he, hm]
    · have h0 : ∀ q : TypeRow → Bool,
          ((db.typeRows.filter q).map projectType).count r = 0 := by
        intro q
        rw [List.count_eq_zero]
        intro hc
        obtain ⟨x, hx, hfx⟩ := List.mem_map.mp hc
        exact hmem (hfx ▸ List.mem_map_of_mem projectType (List.mem_of_mem_filter hx))
      rw [h0, h0]
      simp
  | assertedPart =>
    simp only [partitionRows]
    rw [List.filter_congr (fun x _ => matchesStmtRow_factor rm p ctx oe hoe x),
      count_filter_ite, count_filter_ite]
    by_cases he : evalPatClause rm r.object oe <;>
      by_cases hm : matchesStmtRow rm none p none ctx r <;> simp [he, hm]
  | literalPart =>
    simp only [partitionRows]
    rw [List.filter_congr (fun x _ => matchesStmtRow_factor rm p ctx oe hoe x),
      count_filter_ite, count_filter_ite]
    by_cases he : evalPatClause rm r.object oe <;>
      by_cases hm : matchesStmtRow rm none p none ctx r <;> simp [he, hm]
  | quotedPart =>
    simp only [partitionRows]
    rw [List.filter_congr (fun x _ => matchesStmtRow_factor rm p ctx oe hoe x),
      count_filter_ite, count_filter_ite]
    by_cases he : evalPatClause rm r.object oe <;>
      by_cases hm : matchesStmtRow rm none p none ctx r <;> simp [he, hm]

/-- The whole `triples` row count for a non-literal object slot value
factors the same way, with the object-wildcard per-partition counts
summed over the selected partitions. -/
theorem triplesRows_factor (rm : String → String → Bool) (db : DB) (p : Option Pat)
    (oe : Pat) (hoe : isLitPat oe = false) (r : SRow) :
    (triplesRows false rm db none p (some oe) none).count r =
      if evalPatClause rm r.object oe then
        ((triplesSelects false rm p (some oe) false).map
          (fun t => (partitionRows rm db none p none none t).count r)).sum
      else 0 := by
  unfold triplesRows
  rw [count_flatten_sum, List.map_map]
  have hs : ∀ t ∈ triplesSelects false rm p (some oe) (Option.isSome (none : Option String)),
      ((fun l => l.count r) ∘ partitionRows rm db none p (some oe) none) t =
        (fun t => if evalPatClause rm r.object oe then
          (partitionRows rm db none p none none t).count r else 0) t := by
    intro t _
    exact partitionRows_count_factor rm db p none oe hoe t r
  rw [List.map_congr_left hs, sum_map_ite]
  rfl

/-- A list is a prefix of itself extended on the right. -/
theorem isPrefixOf_append_self (l1 l2 : List Char) : l1.isPrefixOf (l1 ++ l2) = true := by
  induction l1 with
  | nil => simp [List.isPrefixOf]
  | cons a as ih => simp [List.isPrefixOf, ih]

/-- The skolemised form of a blank node starts with `bnode:`. -/
theorem pyStartsWith_bnode_append (b : String) :
    pyStartsWith ("bnode:" ++ b) "bnode:" = true := by
  unfold pyStartsWith
  rw [String.data_append]
  exact isPrefixOf_append_self _ _

/-- Round trip of the per-term skolemisation maps, for a term that is not
a URIRef already carrying the `bnode:` prefix. -/
theorem deskolemise_skolemise_term (t : Term)
    (h : ∀ v, t = Term.uri v → pyStartsWith v "bnode:" = false) :
    deskolemiseTerm (skolemiseTerm t) = t := by
  cases t with
  | uri v => simp [skolemiseTerm, deskolemiseTerm, h v rfl]
  | bnode b =>
    simp only [skolemiseTerm, deskolemiseTerm, pyStartsWith_bnode_append, if_pos]
    rfl
  | lit v l d => rfl

/-- Statement-level skolemisation round trip under the `noBnodeUris`
guard. -/
theorem deskolemise_skolemise (s : List Term) (h : noBnodeUris s = true) :
    deskolemise (skolemise s) = s := by
  induction s with
  | nil => rfl
  | cons t rest ih =>
    have h0 : (termNoBnodeUri t && noBnodeUris rest) = true := h
    rw [Bool.and_eq_true] at h0
    have ht : ∀ v, t = Term.uri v → pyStartsWith v "bnode:" = false := by
      intro v hv
      subst hv
      simpa [termNoBnodeUri] using h0.1
    show deskolemiseTerm (skolemiseTerm t) :: deskolemise (skolemise rest) = t :: rest
    rw [deskolemise_skolemise_term t ht, ih h0.2]

/-! ## Claim theorems -/

/-- Claim C1 (code bug): `remove((None, None, None), context)` never
delegates to `_remove_context`, because the guard tests the Python
builtin `object` — which is never `None` — instead of the unpacked `obj`.
The call instead runs the general delete path, issuing deletes against
the literal, quoted, asserted, type and (again) quoted partitions. -/
theorem remove_fully_unbound_never_delegates (c : String) :
    removePlan false none none none (some c) =
      { delegated := false,
        deletes := [.literalPart, .quotedPart, .assertedPart, .typePart, .quotedPart] } := rfl

/-- Claim C2 counterexample: with an engine whose every execute call
fails, `remove` and `bind` log the failure (their except-handlers run)
yet return normally — `raised = false` — so not every write operation
re-raises engine failures. -/
theorem remove_swallows_engine_failure_cex :
    (removeWrite (fun _ => true) rmNone false none pP none (some "c") dbEmpty).logged = true ∧
    (removeWrite (fun _ => true) rmNone false none pP none (some "c") dbEmpty).raised = false ∧
    (bindWrite (fun _ => true) "ex" "http://example.org/ns#" dbEmpty).logged = true ∧
    (bindWrite (fun _ => true) "ex" "http://example.org/ns#" dbEmpty).raised = false := by
  exact ⟨rfl, rfl, rfl, rfl⟩

/-- Claim C2 (amended): on an engine execution failure, `add` and `addN`
log and re-raise the exception; `remove` logs and rolls its transaction
back but swallows the exception, returning normally; `bind` logs and
swallows.  Success leaves nothing logged or raised. -/
theorem write_failure_policy (f : Nat → Bool) (rm : String → String → Bool)
    (q : Quad) (quoted : Bool) (quads : List Quad) (stt : Bool)
    (s p o : Option Pat) (ctx : Option String) (pfx ns : String) (db : DB) :
    ((addWrite f q quoted db).raised = f 0 ∧ (addWrite f q quoted db).logged = f 0) ∧
    ((addNWrite f quads db).raised = anyFailIn f 0 (groupCommands quads).length ∧
      (addNWrite f quads db).logged = anyFailIn f 0 (groupCommands quads).length) ∧
    ((removeWrite f rm stt s p o ctx db).raised = false ∧
      (removeWrite f rm stt s p o ctx db).logged =
        anyFailIn f 0 (removeGeneralDeletes stt p o).length ∧
      (removeWrite f rm stt s p o ctx db).state =
        (if anyFailIn f 0 (removeGeneralDeletes stt p o).length then db
         else (removeGeneralDeletes stt p o).foldl
           (fun d t => applyDeleteOp rm s p o ctx t d) db)) ∧
    ((bindWrite f pfx ns db).raised = false ∧ (bindWrite f pfx ns db).logged = f 0) := by
  refine ⟨⟨?_, ?_⟩, ⟨?_, ?_⟩, ⟨?_, ?_, ?_⟩, ⟨?_, ?_⟩⟩
  · by_cases h0 : f 0 <;> simp [addWrite, h0]
  · by_cases h0 : f 0 <;> simp [addWrite, h0]
  · simp only [addNWrite, execSeq_eq]
    by_cases h : anyFailIn f 0 (groupCommands quads).length <;> simp [h]
  · simp only [addNWrite, execSeq_eq]
    by_cases h : anyFailIn f 0 (groupCommands quads).length <;> simp [h]
  · simp only [removeWrite, removePlan_not_delegated, execSeq_eq]
    by_cases h : anyFailIn f 0 (removeGeneralDeletes stt p o).length <;> simp [h]
  · simp only [removeWrite, removePlan_not_delegated, execSeq_eq]
    by_cases h : anyFailIn f 0 (removeGeneralDeletes stt p o).length <;> simp [h]
  · simp only [removeWrite, removePlan_not_delegated, execSeq_eq]
    by_cases h : anyFailIn f 0 (removeGeneralDeletes stt p o).length <;> simp [h]
  · by_cases h0 : f 0 <;> simp [bindWrite, h0]
  · by_cases h0 : f 0 <;> simp [bindWrite, h0]

/-- Claim C3: when the pattern's predicate equals `RDF.type`, the union
query scans the type partition, plus the quoted partition exactly when a
context is given; the asserted non-type and literal partitions are never
scanned. -/
theorem rdf_type_pattern_scans_type_and_quoted_only (stt : Bool)
    (rm : String → String → Bool) (o : Option Pat) (hasCtx : Bool) (p : Option Pat)
    (h : patEqRdfType p = true) :
    triplesSelects stt rm p o hasCtx =
      [.typePart] ++ (if hasCtx then [.quotedPart] else []) ∧
    Partition.assertedPart ∉ triplesSelects stt rm p o hasCtx ∧
    Partition.literalPart ∉ triplesSelects stt rm p o hasCtx := by
  have hsel : triplesSelects stt rm p o hasCtx =
      [.typePart] ++ (if hasCtx then [.quotedPart] else []) := by
    unfold triplesSelects
    rw [if_pos h]
  refine ⟨hsel, ?_, ?_⟩ <;> rw [hsel] <;> cases hasCtx <;> simp

/-- Claim C3 witness: the theorem applied to the concrete pattern
`(None, RDF.type, None)` with a context present. -/
theorem rdf_type_pattern_scans_witness :
    patEqRdfType (some (.term (.uri rdfTypeStr))) = true ∧
    (triplesSelects false rmNone (some (.term (.uri rdfTypeStr))) none true =
        [.typePart] ++ (if true then [.quotedPart] else []) ∧
      Partition.assertedPart ∉ triplesSelects false rmNone (some (.term (.uri rdfTypeStr))) none true ∧
      Partition.literalPart ∉ triplesSelects false rmNone (some (.term (.uri rdfTypeStr))) none true) :=
  ⟨by decide,
    rdf_type_pattern_scans_type_and_quoted_only false rmNone none true
      (some (.term (.uri rdfTypeStr))) (by decide)⟩

/-- Claim C4 (code bug): the first decode of a literal stores the cache
entry under a 2-tuple (or bare-string) key while every lookup uses the
3-tuple `(value, language, datatype)` key, so the entry is not
retrievable under the lookup key and a second decode of the same
arguments misses again and constructs (and stores) a fresh term — the
literal cache never hits. -/
theorem literal_cache_key_mismatch (v : String) (lang dt : Option String) :
    cacheGet (createLiteralTerm [] v lang dt).2 (.key3 v lang dt) = none ∧
    (createLiteralTerm (createLiteralTerm [] v lang dt).2 v lang dt).2.length = 2 := by
  by_cases hl : optTruthy lang <;> by_cases hd : optTruthy dt <;>
    simp [createLiteralTerm, cacheGet, cachePut, hl, hd]

/-- Claim C5 counterexample: a statement holding the URIRef `bnode:x`
(no blank node anywhere) is changed by the round trip — `skolemise`
leaves it alone but `deskolemise` rewrites it to the blank node `x` —
so `deskolemise(skolemise(s)) == s` does not hold for every statement. -/
theorem skolem_roundtrip_cex :
    deskolemise (skolemise [Term.uri "bnode:x"]) ≠ [Term.uri "bnode:x"] := by
  decide

/-- Claim C5 (amended): for any statement none of whose URIRef terms
already starts with `bnode:`, `deskolemise (skolemise s) = s`; and
`skolemise` leaves every non-blank term unchanged. -/
theorem skolem_roundtrip_amended (s : List Term) (h : noBnodeUris s = true) :
    deskolemise (skolemise s) = s ∧
    ∀ t : Term, (∀ b, t ≠ Term.bnode b) → skolemiseTerm t = t := by
  refine ⟨deskolemise_skolemise s h, ?_⟩
  intro t ht
  cases t with
  | uri v => rfl
  | bnode b => exact absurd rfl (ht b)
  | lit v l d => rfl

/-- Claim C5 witness: the amended theorem applied to a statement with a
blank node, a URIRef and a literal whose lexical form (but not URI)
starts with `bnode:`. -/
theorem skolem_roundtrip_witness :
    noBnodeUris [Term.bnode "x", Term.uri "http://a", Term.lit "bnode:y" none none] = true ∧
    (deskolemise (skolemise [Term.bnode "x", Term.uri "http://a",
        Term.lit "bnode:y" none none]) =
        [Term.bnode "x", Term.uri "http://a", Term.lit "bnode:y" none none] ∧
      ∀ t : Term, (∀ b, t ≠ Term.bnode b) → skolemiseTerm t = t) :=
  ⟨by decide, skolem_roundtrip_amended _ (by decide)⟩

/-- Claim C6: `addN` executes its grouped per-kind batches inside one
transaction: if any batch's execute call fails, the whole transaction is
rolled back — the state is exactly the pre-call state, none of the call's
statements are visible — and the exception is re-raised; otherwise every
batch is applied and committed. -/
theorem addN_transaction_atomicity (f : Nat → Bool) (quads : List Quad) (db : DB) :
    addNWrite f quads db =
      if anyFailIn f 0 (groupCommands quads).length then
        { raised := true, logged := true, state := db }
      else
        { raised := false, logged := false,
          state := (groupCommands quads).foldl (fun d b => applyBatch b d) db } := by
  simp only [addNWrite, execSeq_eq]
  by_cases h : anyFailIn f 0 (groupCommands quads).length <;> simp [h]

/-- Claim C7 counterexample: with `p` bound, the asserted row whose
object column is `foo` is returned by
`triples((None, p, [Literal("foo"), URIRef("bar")]), None)` but by
neither `triples((None, p, Literal("foo")), None)` — which skips the
asserted partition — nor `triples((None, p, URIRef("bar")), None)`, so
the list query is not the union of the two single-term queries. -/
theorem obj_list_union_cex :
    (triplesRows false rmNone dbFoo none pP (some (.tlist [oLit, oBar])) none).count rFoo = 1 ∧
    (triplesRows false rmNone dbFoo none pP (some oLit) none).count rFoo = 0 ∧
    (triplesRows false rmNone dbFoo none pP (some oBar) none).count rFoo = 0 := by
  exact ⟨rfl, rfl, rfl⟩

/-- Claim C7 (amended): a list-valued object slot compiles to the `OR`
of the single-term clause over its non-falsy elements; and — provided no
list element is a Literal (and the elements are truthy) — the rows of
`triples((None, p, [o1, o2]), None)` are exactly the union of the rows
of the two single-term queries, each source row occurring once. -/
theorem obj_list_union_amended (rm : String → String → Bool) (db : DB)
    (p : Option Pat) (o1 o2 : Pat)
    (h1 : patTruthy o1 = true) (h2 : patTruthy o2 = true)
    (h3 : isLitPat o1 = false) (h4 : isLitPat o2 = false) :
    (∀ col, evalSlot rm (some (.tlist [o1, o2])) col =
        (evalPatClause rm col o1 || evalPatClause rm col o2)) ∧
    ∀ r : SRow,
      (triplesRows false rm db none p (some (.tlist [o1, o2])) none).count r =
        max ((triplesRows false rm db none p (some o1) none).count r)
            ((triplesRows false rm db none p (some o2) none).count r) := by
  constructor
  · intro col
    show evalPatClause rm col (.tlist [o1, o2]) = _
    simp only [evalPatClause]
    exact evalPatList_pair rm col o1 o2 h1 h2
  · intro r
    have hsel1 : triplesSelects false rm p (some (.tlist [o1, o2])) false =
        triplesSelects false rm p (some o1) false := by
      rw [triplesSelects_false_indep rm p (some (.tlist [o1, o2])) false rfl,
        triplesSelects_false_indep rm p (some o1) false
          (show isLitOpt (some o1) = false from h3)]
    have hsel2 : triplesSelects false rm p (some o2) false =
        triplesSelects false rm p (some o1) false := by
      rw [triplesSelects_false_indep rm p (some o2) false
          (show isLitOpt (some o2) = false from h4),
        triplesSelects_false_indep rm p (some o1) false
          (show isLitOpt (some o1) = false from h3)]
    have hpair := triplesRows_factor rm db p (.tlist [o1, o2]) rfl r
    have hq1 := triplesRows_factor rm db p o1 h3 r
    have hq2 := triplesRows_factor rm db p o2 h4 r
    rw [hpair, hq1, hq2, hsel1, hsel2]
    have he : evalPatClause rm r.object (.tlist [o1, o2]) =
        (evalPatClause rm r.object o1 || evalPatClause rm r.object o2) := by
      simp only [evalPatClause]
      exact evalPatList_pair rm r.object o1 o2 h1 h2
    rw [he]
    cases evalPatClause rm r.object o1 <;> cases evalPatClause rm r.object o2 <;> simp

/-- Claim C7 witness: the amended theorem applied to two URI object
terms against a store whose asserted partition holds one row matching the
first. -/
theorem obj_list_union_witness :
    (patTruthy o1W = true ∧ patTruthy o2W = true ∧
      isLitPat o1W = false ∧ isLitPat o2W = false) ∧
    (triplesRows false rmNone dbW none pP (some (.tlist [o1W, o2W])) none).count rW =
      max ((triplesRows false rmNone dbW none pP (some o1W) none).count rW)
          ((triplesRows false rmNone dbW none pP (some o2W) none).count rW) :=
  ⟨⟨by decide, by decide, by decide, by decide⟩,
    (obj_list_union_amended rmNone dbW pP o1W o2W
      (by decide) (by decide) (by decide) (by decide)).2 rW⟩

/-- Claim C8: in the full-triple modes, `union_select` projects every
partition onto the uniform eight-column shape — the type partition as
`(id, member→subject, "rdf:type"→predicate, klass→object, context,
termComb, NULL, NULL)`, the asserted non-type partition as its native
columns plus two NULL placeholders, and the literal and quoted partitions
as their eight native columns. -/
theorem union_select_projection_shapes (tbl : String) :
    (unionSelectColumns .tripleSel .typePart tbl =
      [{ expr := .colRef tbl "id", label := "id" },
        { expr := .colRef tbl "member", label := "subject" },
        { expr := .strLit rdfTypeStr, label := "predicate" },
        { expr := .colRef tbl "klass", label := "object" },
        { expr := .colRef tbl "context", label := "context" },
        { expr := .colRef tbl "termComb", label := "termcomb" },
        { expr := .nullLit, label := "objlanguage" },
        { expr := .nullLit, label := "objdatatype" }]) ∧
    (unionSelectColumns .tripleSel .assertedPart tbl =
      [{ expr := .colRef tbl "id", label := "id" },
        { expr := .colRef tbl "subject", label := "subject" },
        { expr := .colRef tbl "predicate", label := "predicate" },
        { expr := .colRef tbl "object", label := "object" },
        { expr := .colRef tbl "context", label := "context" },
        { expr := .colRef tbl "termComb", label := "termComb" },
        { expr := .nullLit, label := "objlanguage" },
        { expr := .nullLit, label := "objdatatype" }]) ∧
    (unionSelectColumns .tripleSel .literalPart tbl =
      [{ expr := .colRef tbl "id", label := "id" },
        { expr := .colRef tbl "subject", label := "subject" },
        { expr := .colRef tbl "predicate", label := "predicate" },
        { expr := .colRef tbl "object", label := "object" },
        { expr := .colRef tbl "context", label := "context" },
        { expr := .colRef tbl "termComb", label := "termComb" },
        { expr := .colRef tbl "objLanguage", label := "objLanguage" },
        { expr := .colRef tbl "objDatatype", label := "objDatatype" }]) ∧
    (unionSelectColumns .tripleSel .quotedPart tbl =
      unionSelectColumns .tripleSel .literalPart tbl) ∧
    (unionSelectColumns .tripleNoOrder .typePart tbl =
      unionSelectColumns .tripleSel .typePart tbl) ∧
    (unionSelectColumns .tripleNoOrder .assertedPart tbl =
      unionSelectColumns .tripleSel .assertedPart tbl) ∧
    (unionSelectColumns .tripleNoOrder .literalPart tbl =
      unionSelectColumns .tripleSel .literalPart tbl) ∧
    (unionSelectColumns .tripleNoOrder .quotedPart tbl =
      unionSelectColumns .tripleSel .quotedPart tbl) := by
  exact ⟨rfl, rfl, rfl, rfl, rfl, rfl, rfl, rfl⟩

/-- Claim C9: every context yielded by `contexts()` is a plain URIRef
handle built from the raw context column value; no quoted/formula-graph
handle is ever yielded, whatever partition (and stored context kind) the
row came from. -/
theorem contexts_yields_plain_urirefs (db : DB) :
    (∀ h ∈ contextsAll db, ∃ v ∈ ctxColumnValues db, h = YieldedCtx.uriRef v) ∧
    (∀ v, YieldedCtx.quotedGraphHandle v ∉ contextsAll db) := by
  constructor
  · intro h hh
    obtain ⟨v, hv, hov⟩ := List.mem_map.mp hh
    exact ⟨v, hv, hov.symm⟩
  · intro v hv
    obtain ⟨w, _, hw⟩ := List.mem_map.mp hv
    exact YieldedCtx.noConfusion hw

/-- Claim C9 witness: the theorem applied to a store whose only row is in
the quoted partition with a formula-kind context code. -/
theorem contexts_yields_plain_urirefs_witness :
    YieldedCtx.uriRef "c" ∈ contextsAll dbCtxQ ∧
    (∃ v ∈ ctxColumnValues dbCtxQ, YieldedCtx.uriRef "c" = YieldedCtx.uriRef v) :=
  ⟨by decide, (contexts_yields_plain_urirefs dbCtxQ).1 (YieldedCtx.uriRef "c") (by decide)⟩

/-- Claim C10: `triples_choices` replaces an empty list slot by `None`
before dispatching to `triples`, so the call is the wildcard query for
that slot — and a `None` slot compiles to no clause, matching every
column value. -/
theorem empty_choice_list_is_wildcard (stt : Bool) (rm : String → String → Bool)
    (db : DB) (s p o : Option Pat) (ctx : Option String) :
    triples_choices_obj stt rm db s p [] ctx = triplesRows stt rm db s p none ctx ∧
    triples_choices_subj stt rm db [] p o ctx = triplesRows stt rm db none p o ctx ∧
    triples_choices_pred stt rm db s [] o ctx = triplesRows stt rm db s none o ctx ∧
    ∀ col, evalSlot rm none col = true := by
  exact ⟨rfl, rfl, rfl, fun _ => rfl⟩

end RStore
